import Mathlib

/-!
Verification of the transport-adaptation core of gost-dev/outbound.

Part 1 shallowly embeds the gRPC-backed server connection adapter
(src/transport/grpc/grpc_server.go): the `ServerConn` state, its
Read/Write paths, and the deadline controller
(SetDeadline / SetReadDeadline / SetWriteDeadline).

Part 2 shallowly embeds the hysteria2 client
(src/protocol/hysteria2/client/client.go): congestion-control
selection in `connect`, the per-request TCP stream protocol with
fast-open, and the datagram receive loop.

Concurrency is modelled functionally: each blocking transport call is
represented by a parameter carrying the value it completes with, and
the select race between the completion channel and the cancellation
contexts is decided by the context flags of the (immutable) state, the
same flags the fail-fast check reads.  Machine integers (uint64 rates,
byte counts) stay far below their bounds in all code paths modelled,
so they are embedded as Nat.
-/

/-! ## Part 1: gRPC ServerConn (src/transport/grpc/grpc_server.go) -/

/-- A gRPC status code, as produced by status.Code on an error.
Only the codes the adapter inspects are distinguished; every other
code (including codes.Unknown for non-status errors) is `other`. -/
inductive GrpcCode where
  | ok
  | unavailable
  | outOfRange
  | other (n : Nat)
deriving DecidableEq, Repr

/-- An error returned by the underlying stream's Recv/Send, identified
by its gRPC status code plus an opaque detail string so that distinct
errors with the same code stay distinct. -/
structure GErr where
  code : GrpcCode
  detail : String
deriving DecidableEq, Repr

/-- An error observed by the caller of ServerConn.Read/Write:
os.ErrDeadlineExceeded, io.EOF, or an untranslated transport error. -/
inductive ConnError where
  | deadlineExceeded
  | eof
  | transport (e : GErr)
deriving DecidableEq, Repr

/-- The status translation both Read and Write apply to a completed
transport call: codes.Unavailable and codes.OutOfRange become io.EOF,
everything else is passed through. -/
def statusTranslate (e : GErr) : ConnError :=
  if e.code = GrpcCode.unavailable ∨ e.code = GrpcCode.outOfRange then
    ConnError.eof
  else
    ConnError.transport e

/-- State of a ServerConn: the leftover buffer `buf` with its read
`offset` (`none` models the Go nil slice), the three cancellation
contexts as tripped flags (ctxRead / ctxWrite / ctx done), and the two
armed deadline timers (the instant each would fire at, `none` when no
timer is armed).  Time instants are Nat, with 0 for the zero
time.Time value. -/
structure ServerConn where
  buf : Option (List Nat)
  offset : Nat
  ctxReadDone : Bool
  ctxWriteDone : Bool
  ctxDone : Bool
  readTimer : Option Nat
  writeTimer : Option Nat
deriving DecidableEq, Repr

/-- A freshly constructed ServerConn (NewServerConn): no leftover
buffer, all three contexts live, no timers armed. -/
def initConn : ServerConn :=
  ⟨none, 0, false, false, false, none, none⟩

/-- Modelled from the spec: the buffer-pool allocator (package pool of
this repository, not under src/).  pool.Get(size) yields a buffer of
exactly `size` bytes — here already filled with the remainder the
source copies into it — and the spec (section 4.2 step 5) retains a
leftover only when the received payload is strictly larger than the
caller's buffer, so acquiring a zero-sized buffer yields no retained
buffer (the nil slice, `none`). -/
def poolGet (rest : List Nat) : Option (List Nat) :=
  if rest = [] then none else some rest

/-- What one blocking tun.Recv call completes with: a hunk carrying
`data`, or an error. -/
inductive RecvResult where
  | msg (data : List Nat)
  | err (e : GErr)
deriving DecidableEq, Repr

/-- Outcome of one ServerConn.Read call: the returned byte count `n`,
the bytes actually copied into the caller's buffer, the returned
error, whether this call performed a transport receive (launched the
background tun.Recv task), and the connection state afterwards. -/
structure ReadResult where
  n : Nat
  bytes : List Nat
  err : Option ConnError
  recvCalled : Bool
  conn : ServerConn
deriving DecidableEq, Repr

/-- ServerConn.Read with a caller buffer of length `plen`, where
`recv` is what the background tun.Recv completes with if it is
launched.  Fail-fast: deadline-exceeded if the read context is done,
io.EOF if the close context is done.  Then the leftover branch (copy
from buf at offset, release once fully drained, no transport call), or
else one receive: error codes translated, otherwise copy what fits and
retain the remainder via the pool. -/
def ServerConn.read (c : ServerConn) (plen : Nat) (recv : RecvResult) : ReadResult :=
  if c.ctxReadDone then ⟨0, [], some ConnError.deadlineExceeded, false, c⟩
  else if c.ctxDone then ⟨0, [], some ConnError.eof, false, c⟩
  else
    match c.buf with
    | some b =>
        let taken := (b.drop c.offset).take plen
        let n := taken.length
        if c.offset + n = b.length then
          ⟨n, taken, none, false, { c with buf := none, offset := c.offset + n }⟩
        else
          ⟨n, taken, none, false, { c with offset := c.offset + n }⟩
    | none =>
        match recv with
        | RecvResult.err e => ⟨0, [], some (statusTranslate e), true, c⟩
        | RecvResult.msg data =>
            let taken := data.take plen
            let n := taken.length
            ⟨n, taken, none, true,
              { c with buf := poolGet (data.drop n), offset := 0 }⟩

/-- Outcome of one ServerConn.Write call: returned count and error. -/
structure WriteResult where
  n : Nat
  err : Option ConnError
deriving DecidableEq, Repr

/-- ServerConn.Write of a buffer of length `plen`, where `send` is the
error the background tun.Send completes with (`none` on success).
Fail-fast on the write/close contexts; when the send completes the
source returns `len(p)` together with the status-translated error. -/
def ServerConn.write (c : ServerConn) (plen : Nat) (send : Option GErr) : WriteResult :=
  if c.ctxWriteDone then ⟨0, some ConnError.deadlineExceeded⟩
  else if c.ctxDone then ⟨0, some ConnError.eof⟩
  else ⟨plen, Option.map statusTranslate send⟩

/-- ServerConn.SetReadDeadline at instant `now` with argument `t`.
If t.After(now): replace a tripped read context by a fresh live one,
then (re)arm the read timer for `t`.  Otherwise: cancel the read
context if not already done (the timers are left as they are). -/
def ServerConn.setReadDeadline (c : ServerConn) (now t : Nat) : ServerConn :=
  if now < t then
    let c1 := if c.ctxReadDone then { c with ctxReadDone := false } else c
    { c1 with readTimer := some t }
  else
    if c.ctxReadDone then c else { c with ctxReadDone := true }

/-- ServerConn.SetWriteDeadline, symmetric to `setReadDeadline`. -/
def ServerConn.setWriteDeadline (c : ServerConn) (now t : Nat) : ServerConn :=
  if now < t then
    let c1 := if c.ctxWriteDone then { c with ctxWriteDone := false } else c
    { c1 with writeTimer := some t }
  else
    if c.ctxWriteDone then c else { c with ctxWriteDone := true }

/-- ServerConn.SetDeadline: acts on both directions under the one
deadline lock. -/
def ServerConn.setDeadline (c : ServerConn) (now t : Nat) : ServerConn :=
  if now < t then
    let c1 := if c.ctxReadDone then { c with ctxReadDone := false } else c
    let c2 := if c1.ctxWriteDone then { c1 with ctxWriteDone := false } else c1
    { c2 with readTimer := some t, writeTimer := some t }
  else
    let c1 := if c.ctxReadDone then c else { c with ctxReadDone := true }
    if c1.ctxWriteDone then c1 else { c1 with ctxWriteDone := true }

/-- The callback an armed read-deadline timer runs when it fires:
cancel the read context unless it is already done. -/
def ServerConn.readDeadlineFire (c : ServerConn) : ServerConn :=
  if c.ctxReadDone then c else { c with ctxReadDone := true }

/-- The callback an armed write-deadline timer runs when it fires. -/
def ServerConn.writeDeadlineFire (c : ServerConn) : ServerConn :=
  if c.ctxWriteDone then c else { c with ctxWriteDone := true }

/-- ServerConn.Close: trip the overall context once (idempotent). -/
def ServerConn.close (c : ServerConn) : ServerConn :=
  if c.ctxDone then c else { c with ctxDone := true }

/-- `k` successive Read calls with the same caller-buffer length; the
background receive, if launched, always completes with `recv`.
Returns the list of per-call outcomes and the final state. -/
def readSeq (plen : Nat) (recv : RecvResult) : ServerConn → Nat → List ReadResult × ServerConn
  | c, 0 => ([], c)
  | c, Nat.succ k =>
      let r := c.read plen recv
      let rest := readSeq plen recv r.conn k
      (r :: rest.1, rest.2)

/-! ## Part 2: hysteria2 client (src/protocol/hysteria2/client/client.go) -/

/-- The auth-response fields `connect` reads from the server's
response headers: the UDP-enabled flag, the rate-adaptive instruction
(RxAuto), and the server's declared receive-bandwidth ceiling Rx. -/
structure AuthResponse where
  udpEnabled : Bool
  rxAuto : Bool
  rx : Nat
deriving DecidableEq, Repr

/-- The congestion-control strategy installed on the QUIC connection:
the adaptive strategy (congestion.UseBBR) or the fixed-rate strategy
(congestion.UseBrutal at a given rate). -/
inductive Congestion where
  | bbr
  | brutal (tx : Nat)
deriving DecidableEq, Repr

/-- Result of a successful handshake: whether UDP forwarding is
enabled and the negotiated transmit rate (0 signals BBR). -/
structure HandshakeInfo where
  udpEnabled : Bool
  tx : Nat
deriving DecidableEq, Repr

/-- The congestion-selection tail of clientImpl.connect (after Auth
OK): on RxAuto use BBR ignoring local bandwidth config; otherwise
actualTx = min(serverRx, clientTx) computed as in the source, Brutal
when positive, BBR when zero; the HandshakeInfo records UDPEnabled and
actualTx.  `maxTx` is config.BandwidthConfig.MaxTx. -/
def connectNegotiate (authResp : AuthResponse) (maxTx : Nat) : Congestion × HandshakeInfo :=
  if authResp.rxAuto then
    (Congestion.bbr, ⟨authResp.udpEnabled, 0⟩)
  else
    let actualTx0 := authResp.rx
    let actualTx := if actualTx0 = 0 ∨ actualTx0 > maxTx then maxTx else actualTx0
    if actualTx > 0 then
      (Congestion.brutal actualTx, ⟨authResp.udpEnabled, actualTx⟩)
    else
      (Congestion.bbr, ⟨authResp.udpEnabled, actualTx⟩)

/-- Written from the spec's words (section 4.3 step 8), for
comparison with `connectNegotiate`: rate-adaptive means BBR; else the
effective transmit rate is the server's declared receive ceiling if it
is nonzero and below the client's configured transmit ceiling, else
the client's configured transmit ceiling; nonzero selects Brutal at
that rate, zero falls back to BBR. -/
def specCongestion (rxAuto : Bool) (serverRx clientTx : Nat) : Congestion :=
  if rxAuto then Congestion.bbr
  else
    let eff := if serverRx ≠ 0 ∧ serverRx < clientTx then serverRx else clientTx
    if eff ≠ 0 then Congestion.brutal eff else Congestion.bbr

/-- The transmit rate the spec says the handshake result records for a
given selected strategy: the Brutal rate, or 0 for BBR. -/
def specTx (cc : Congestion) : Nat :=
  match cc with
  | Congestion.bbr => 0
  | Congestion.brutal r => r

/-- An error from a QUIC-level operation (open/read/write on a
stream), as classified by wrapIfConnectionClosed: whether it is a
net.Error, whether Temporary() holds, plus an opaque tag. -/
structure QErr where
  isNetErr : Bool
  temporary : Bool
  tag : String
deriving DecidableEq, Repr

/-- An error surfaced by the client TCP path: coreErrs.ClosedError
wrapping a QUIC error, coreErrs.DialError carrying a message, or a
QUIC error passed through unwrapped. -/
inductive ClientErr where
  | closedError (e : QErr)
  | dialError (msg : String)
  | raw (e : QErr)
deriving DecidableEq, Repr

/-- wrapIfConnectionClosed: an error that is not a net.Error or is not
Temporary() is wrapped as ClosedError, otherwise returned as is. -/
def wrapIfConnectionClosed (e : QErr) : ClientErr :=
  if !e.isNetErr || !e.temporary then ClientErr.closedError e
  else ClientErr.raw e

/-- The tcpConn state: the two pseudo addresses copied from the QUIC
connection and the Established flag (whether the connect response has
been validated). -/
structure TcpConnRec where
  pseudoLocalAddr : String
  pseudoRemoteAddr : String
  established : Bool
deriving DecidableEq, Repr

deriving instance DecidableEq for Except

/-- Outcome of clientImpl.TCP: the returned connection or error, and
whether the freshly opened stream was closed along the way. -/
structure TCPOutcome where
  result : Except ClientErr TcpConnRec
  streamClosed : Bool
deriving DecidableEq, Repr

/-- clientImpl.TCP(addr): open a stream (`openRes` is its error, if
any), write the TCP request (`writeRes`), then either return the
not-yet-established connection immediately (fast open) or read and
validate the response `resp = (ok, msg)` synchronously: a negative
response closes the stream and yields DialError with the
"from remote: " prefixed message. -/
def clientTCP (fastOpen : Bool) (localAddr remoteAddr : String)
    (openRes writeRes : Option QErr)
    (resp : Except QErr (Bool × String)) : TCPOutcome :=
  match openRes with
  | some e => ⟨Except.error (wrapIfConnectionClosed e), false⟩
  | none =>
      match writeRes with
      | some e => ⟨Except.error (wrapIfConnectionClosed e), true⟩
      | none =>
          if fastOpen then
            ⟨Except.ok ⟨localAddr, remoteAddr, false⟩, false⟩
          else
            match resp with
            | Except.error e => ⟨Except.error (wrapIfConnectionClosed e), true⟩
            | Except.ok (ok, msg) =>
                if ok then ⟨Except.ok ⟨localAddr, remoteAddr, true⟩, false⟩
                else ⟨Except.error (ClientErr.dialError ("from remote: " ++ msg)), true⟩

/-- Outcome of one tcpConn.Read: returned count and error, the
connection state afterwards, and whether this Read closed the
underlying stream. -/
structure TcpReadOutcome where
  n : Nat
  err : Option ClientErr
  conn : TcpConnRec
  streamClosed : Bool
deriving DecidableEq, Repr

/-- tcpConn.Read: when not yet established, first read and validate
the deferred connect response `resp`; a read error is returned
unwrapped, a rejection yields DialError with the bare server message;
on acceptance the flag is set and the read falls through to the
underlying stream read, modelled by its completion `(origN, origErr)`. -/
def tcpConnRead (c : TcpConnRec) (resp : Except QErr (Bool × String))
    (origN : Nat) (origErr : Option QErr) : TcpReadOutcome :=
  if c.established then
    ⟨origN, Option.map ClientErr.raw origErr, c, false⟩
  else
    match resp with
    | Except.error e => ⟨0, some (ClientErr.raw e), c, false⟩
    | Except.ok (ok, msg) =>
        if ok then
          ⟨origN, Option.map ClientErr.raw origErr, { c with established := true }, false⟩
        else
          ⟨0, some (ClientErr.dialError msg), c, false⟩

/-- One incoming event on the QUIC datagram channel: a
connection-level receive error, or a datagram payload. -/
inductive DgramEvent where
  | connErr (e : QErr)
  | dgram (payload : List Nat)
deriving DecidableEq, Repr

/-- udpIOImpl.ReceiveMessage over a stream of incoming events, with
protocol.ParseUDPMessage abstracted as `parse` (that function lives in
internal/protocol, outside src/, and ReceiveMessage only branches on
whether it succeeds): a connection error propagates immediately, a
payload that fails to parse is silently discarded and the loop
continues, a parsed message is returned.  `none` means the loop is
still blocked waiting for further events. -/
def receiveMessage {α : Type} (parse : List Nat → Option α) :
    List DgramEvent → Option (Except QErr α)
  | [] => none
  | DgramEvent.connErr e :: _ => some (Except.error e)
  | DgramEvent.dgram d :: rest =>
      match parse d with
      | none => receiveMessage parse rest
      | some m => some (Except.ok m)

/-- Containment of one string in another, stated on the underlying
character lists. -/
def strContains (s sub : String) : Prop :=
  ∃ pre post : List Char, s.data = pre ++ sub.data ++ post

/-! ## Claim theorems -/

/-- Claim C1, counterexample: a Write on a live ServerConn whose
underlying send completes with a non-nil (untranslatable) error still
returns the full buffer length (here 1), so the byte count does equal
the buffer length with a non-nil error, contrary to the claim. -/
theorem write_full_length_despite_error_cex :
    (initConn.write 1 (some ⟨GrpcCode.other 13, "send failed"⟩)).n = 1
    ∧ (initConn.write 1 (some ⟨GrpcCode.other 13, "send failed"⟩)).err ≠ none := by
  decide

/-- Claim C1 as amended: on a live ServerConn (write and close scopes
untripped) Write returns the full buffer length whenever the
underlying send completes, together with the status-translated error
whether or not that error is nil; the byte count falls short of the
buffer length only on the fail-fast/race paths, which return 0 with
deadline-exceeded (write scope tripped) or io.EOF (close scope
tripped). -/
theorem write_byte_count_after_send_completion (c : ServerConn) (plen : Nat)
    (send : Option GErr) :
    (c.ctxWriteDone = false → c.ctxDone = false →
        c.write plen send = ⟨plen, Option.map statusTranslate send⟩)
    ∧ (c.ctxWriteDone = true →
        c.write plen send = ⟨0, some ConnError.deadlineExceeded⟩)
    ∧ (c.ctxWriteDone = false → c.ctxDone = true →
        c.write plen send = ⟨0, some ConnError.eof⟩) := by
  refine ⟨fun h1 h2 => ?_, fun h1 => ?_, fun h1 h2 => ?_⟩ <;>
    simp [ServerConn.write, h1] <;> simp [h2]

/-- Witness for the amended C1 at a concrete input. -/
theorem write_byte_count_witness :
    initConn.write 3 (some ⟨GrpcCode.other 7, "x"⟩)
      = ⟨3, some (ConnError.transport ⟨GrpcCode.other 7, "x"⟩)⟩ :=
  (write_byte_count_after_send_completion initConn 3
      (some ⟨GrpcCode.other 7, "x"⟩)).1 rfl rfl

/-- Claim C2: at the failing input — the zero time value (instant 0)
given to SetReadDeadline / SetDeadline / SetWriteDeadline at any later
instant (here 5) on a fresh ServerConn with live scopes — the code
takes the not-in-the-future branch and cancels the corresponding
contexts instead of treating zero as "no deadline": no timer is armed,
the scopes trip, and a subsequent Read/Write fails with
deadline-exceeded, contrary to the claim (and to the net.Conn
contract the adapter implements). -/
theorem zero_deadline_trips_scopes :
    (initConn.setReadDeadline 5 0).ctxReadDone = true
    ∧ (initConn.setReadDeadline 5 0).readTimer = none
    ∧ ((initConn.setReadDeadline 5 0).read 4 (RecvResult.msg [1])).err
        = some ConnError.deadlineExceeded
    ∧ (initConn.setDeadline 5 0).ctxReadDone = true
    ∧ (initConn.setDeadline 5 0).ctxWriteDone = true
    ∧ ((initConn.setWriteDeadline 5 0).write 1 none).err
        = some ConnError.deadlineExceeded := by
  decide

/-- Claim C4: on a ServerConn whose read scope has tripped (close
scope still live), setting a read deadline to a future instant
replaces the tripped read scope with a fresh live one and arms the
timer for that instant, so a subsequent Read passes the fail-fast
check and proceeds (here: any Read whose receive completes with a
message succeeds instead of returning deadline-exceeded). -/
theorem future_read_deadline_refreshes_tripped_scope
    (c : ServerConn) (now t : Nat)
    (htripped : c.ctxReadDone = true) (hlive : c.ctxDone = false)
    (hfuture : now < t) :
    (c.setReadDeadline now t).ctxReadDone = false
    ∧ (c.setReadDeadline now t).readTimer = some t
    ∧ ∀ (plen : Nat) (data : List Nat),
        ((c.setReadDeadline now t).read plen (RecvResult.msg data)).err = none := by
  have hset : c.setReadDeadline now t
      = { c with ctxReadDone := false, readTimer := some t } := by
    simp [ServerConn.setReadDeadline, hfuture, htripped]
  refine ⟨by simp [hset], by simp [hset], fun plen data => ?_⟩
  rw [hset]
  simp only [ServerConn.read, hlive]
  cases hb : c.buf with
  | none => simp
  | some b => simp only [Bool.false_eq_true, if_false]; split <;> rfl

/-- Witness for C4 at a concrete input: a fresh connection whose read
deadline was first set in the past (tripping the scope), then reset to
a future instant. -/
theorem future_read_deadline_witness :
    ((initConn.setReadDeadline 5 0).setReadDeadline 6 9).ctxReadDone = false
    ∧ ((initConn.setReadDeadline 5 0).setReadDeadline 6 9).readTimer = some 9
    ∧ ∀ (plen : Nat) (data : List Nat),
        (((initConn.setReadDeadline 5 0).setReadDeadline 6 9).read plen
            (RecvResult.msg data)).err = none :=
  future_read_deadline_refreshes_tripped_scope
    (initConn.setReadDeadline 5 0) 6 9 (by decide) (by decide) (by decide)

/-- Claim C8: on a live ServerConn with no leftover bytes, a Read or
Write whose transport call fails with status Unavailable or OutOfRange
surfaces io.EOF to the caller, and a failure with any other status
code is returned untranslated. -/
theorem status_translation_to_eof (c : ServerConn) (e : GErr) (plen : Nat)
    (h1 : c.ctxReadDone = false) (h2 : c.ctxWriteDone = false)
    (h3 : c.ctxDone = false) (hbuf : c.buf = none) :
    ((e.code = GrpcCode.unavailable ∨ e.code = GrpcCode.outOfRange) →
        (c.read plen (RecvResult.err e)).err = some ConnError.eof
        ∧ (c.write plen (some e)).err = some ConnError.eof)
    ∧ (e.code ≠ GrpcCode.unavailable → e.code ≠ GrpcCode.outOfRange →
        (c.read plen (RecvResult.err e)).err = some (ConnError.transport e)
        ∧ (c.write plen (some e)).err = some (ConnError.transport e)) := by
  constructor
  · intro hcode
    constructor
    · simp [ServerConn.read, h1, h3, hbuf, statusTranslate, hcode]
    · simp [ServerConn.write, h2, h3, statusTranslate, hcode]
  · intro hu ho
    constructor
    · simp [ServerConn.read, h1, h3, hbuf, statusTranslate, hu, ho]
    · simp [ServerConn.write, h2, h3, statusTranslate, hu, ho]

/-- Witness for C8 at a concrete input: an Unavailable receive error
on a fresh connection becomes io.EOF. -/
theorem status_translation_witness :
    (initConn.read 4 (RecvResult.err ⟨GrpcCode.unavailable, "gone"⟩)).err
        = some ConnError.eof
    ∧ (initConn.write 4 (some ⟨GrpcCode.unavailable, "gone"⟩)).err
        = some ConnError.eof :=
  (status_translation_to_eof initConn ⟨GrpcCode.unavailable, "gone"⟩ 4
      rfl rfl rfl rfl).1 (Or.inl rfl)

/-- Claim C3: the congestion-control selection in connect agrees with
the spec's decision rule everywhere — rate-adaptive means BBR with
negotiated Tx 0 ignoring local config, otherwise the effective rate is
the server's declared receive ceiling if nonzero and below the
client's configured transmit ceiling, else the client's ceiling, with
Brutal at a nonzero effective rate and BBR at zero — and reproduces
the spec's four table rows, the handshake result recording the
selected rate. -/
theorem congestion_selection_matches_spec :
    (∀ (u ra : Bool) (rx tx : Nat),
        connectNegotiate ⟨u, ra, rx⟩ tx
          = (specCongestion ra rx tx,
             ⟨u, specTx (specCongestion ra rx tx)⟩))
    ∧ connectNegotiate ⟨false, false, 0⟩ 5000
        = (Congestion.brutal 5000, ⟨false, 5000⟩)
    ∧ connectNegotiate ⟨false, false, 3000⟩ 5000
        = (Congestion.brutal 3000, ⟨false, 3000⟩)
    ∧ (∀ (rx tx : Nat),
        connectNegotiate ⟨false, true, rx⟩ tx = (Congestion.bbr, ⟨false, 0⟩))
    ∧ connectNegotiate ⟨false, false, 0⟩ 0 = (Congestion.bbr, ⟨false, 0⟩) := by
  refine ⟨?_, by decide, by decide, ?_, by decide⟩
  · intro u ra rx tx
    cases ra with
    | true => simp [connectNegotiate, specCongestion, specTx]
    | false =>
      simp only [connectNegotiate, specCongestion, specTx]
      split_ifs <;> simp_all <;> omega
  · intro rx tx
    simp [connectNegotiate]

/-- Claim C6: on a live ServerConn with no leftover bytes, a Read
whose received payload fits entirely into the caller's buffer retains
no leftover buffer, so the next Read (for any buffer length and
whatever its receive completes with) performs a transport receive
instead of returning immediately from a retained empty leftover; and
the leftover buffer is retained — holding exactly the remainder —
precisely when the payload is strictly larger than the buffer. -/
theorem no_leftover_when_payload_fits
    (data : List Nat) (B : Nat) (c : ServerConn)
    (hfit : data.length ≤ B)
    (hbuf : c.buf = none) (h1 : c.ctxReadDone = false) (h2 : c.ctxDone = false) :
    ((c.read B (RecvResult.msg data)).conn).buf = none
    ∧ (∀ (plen : Nat) (recv : RecvResult),
        (((c.read B (RecvResult.msg data)).conn).read plen recv).recvCalled = true)
    ∧ (∀ d : List Nat, B < d.length →
        ((c.read B (RecvResult.msg d)).conn).buf = some (d.drop B)) := by
  have hread : ∀ d : List Nat,
      (c.read B (RecvResult.msg d)).conn
        = { c with buf := poolGet (d.drop (d.take B).length), offset := 0 } := by
    intro d
    simp [ServerConn.read, h1, h2, hbuf]
  have hnone : poolGet (data.drop (data.take B).length) = none := by
    have hlt : (data.take B).length = data.length := by
      rw [List.length_take]; omega
    rw [hlt, List.drop_length]
    rfl
  refine ⟨?_, ?_, ?_⟩
  · rw [hread]; simpa using hnone
  · intro plen recv
    rw [hread]
    simp only [ServerConn.read, h1, h2]
    simp only [Bool.false_eq_true, if_false]
    rw [hnone]
    cases recv <;> rfl
  · intro d hgt
    rw [hread]
    have hB : (d.take B).length = B := by
      rw [List.length_take]; omega
    have hne : d.drop B ≠ [] := by
      apply List.ne_nil_of_length_pos
      rw [List.length_drop]; omega
    simp [hB, poolGet, hne]

/-- Witness for C6 at a concrete input: a 2-byte payload into a 3-byte
buffer leaves no leftover, and the next Read performs a receive. -/
theorem no_leftover_witness :
    ((initConn.read 3 (RecvResult.msg [10, 20])).conn).buf = none
    ∧ (∀ (plen : Nat) (recv : RecvResult),
        (((initConn.read 3 (RecvResult.msg [10, 20])).conn).read plen
            recv).recvCalled = true)
    ∧ (∀ d : List Nat, 3 < d.length →
        ((initConn.read 3 (RecvResult.msg d)).conn).buf = some (d.drop 3)) :=
  no_leftover_when_payload_fits [10, 20] 3 initConn (by decide) rfl rfl rfl

/-- Claim C7: for a server rejection response (false, msg), with
fast-open enabled TCP returns a connection object (not yet
established) without error and the first Read on it fails with a dial
error containing the server's message; with fast-open disabled the
same rejection makes TCP itself fail with a dial error containing the
server's message. -/
theorem fast_open_defers_rejection (msg la ra : String)
    (origN : Nat) (origErr : Option QErr) :
    (∃ conn : TcpConnRec,
        (clientTCP true la ra none none (Except.ok (false, msg))).result
            = Except.ok conn
        ∧ conn.established = false
        ∧ ∃ m : String,
            (tcpConnRead conn (Except.ok (false, msg)) origN origErr).err
                = some (ClientErr.dialError m)
            ∧ strContains m msg)
    ∧ (∃ m : String,
        (clientTCP false la ra none none (Except.ok (false, msg))).result
            = Except.error (ClientErr.dialError m)
        ∧ strContains m msg) := by
  constructor
  · refine ⟨⟨la, ra, false⟩, rfl, rfl, msg, ?_, ⟨[], [], by simp⟩⟩
    simp [tcpConnRead]
  · refine ⟨"from remote: " ++ msg, rfl, ⟨"from remote: ".data, [], ?_⟩⟩
    show ("from remote: " ++ msg).data = "from remote: ".data ++ msg.data ++ []
    simp

/-- Claim C10: at the first Read of a not-yet-established (fast-open)
connection, a server rejection yields a dial error whose message is
exactly the server's message, without the "from remote: " prefixed
form the synchronous path produces, and that Read does not close the
underlying stream; the synchronous (non-fast-open) TCP path, on the
same rejection, closes the stream and prepends "from remote: " to the
message. -/
theorem rejection_message_shape_and_stream_close (msg la ra : String)
    (c : TcpConnRec) (h : c.established = false)
    (origN : Nat) (origErr : Option QErr) :
    (tcpConnRead c (Except.ok (false, msg)) origN origErr).err
        = some (ClientErr.dialError msg)
    ∧ (tcpConnRead c (Except.ok (false, msg)) origN origErr).streamClosed = false
    ∧ (clientTCP false la ra none none (Except.ok (false, msg))).result
        = Except.error (ClientErr.dialError ("from remote: " ++ msg))
    ∧ (clientTCP false la ra none none (Except.ok (false, msg))).streamClosed
        = true := by
  refine ⟨?_, ?_, rfl, rfl⟩ <;> simp [tcpConnRead, h]

/-- Witness for C10 at a concrete input. -/
theorem rejection_message_shape_witness :
    (tcpConnRead ⟨"a", "b", false⟩ (Except.ok (false, "denied")) 0 none).err
        = some (ClientErr.dialError "denied")
    ∧ (tcpConnRead ⟨"a", "b", false⟩ (Except.ok (false, "denied")) 0
        none).streamClosed = false
    ∧ (clientTCP false "a" "b" none none (Except.ok (false, "denied"))).result
        = Except.error (ClientErr.dialError ("from remote: " ++ "denied"))
    ∧ (clientTCP false "a" "b" none none
        (Except.ok (false, "denied"))).streamClosed = true :=
  rejection_message_shape_and_stream_close "denied" "a" "b"
    ⟨"a", "b", false⟩ rfl 0 none

/-- Helper for C9: a block of malformed datagrams at the front of the
event stream is skipped by the receive loop without any effect. -/
theorem receiveMessage_skips_malformed {α : Type} (parse : List Nat → Option α) :
    ∀ (bad : List (List Nat)), (∀ b ∈ bad, parse b = none) →
      ∀ evs : List DgramEvent,
        receiveMessage parse (bad.map DgramEvent.dgram ++ evs)
          = receiveMessage parse evs := by
  intro bad
  induction bad with
  | nil => intro _ evs; rfl
  | cons b bs ih =>
      intro hbad evs
      have hb : parse b = none := hbad b (List.mem_cons_self b bs)
      have hbs : ∀ x ∈ bs, parse x = none := fun x hx =>
        hbad x (List.mem_cons_of_mem b hx)
      simp only [List.map_cons, List.cons_append, receiveMessage, hb]
      exact ih hbs evs

/-- Claim C9: the datagram receive loop silently discards every
malformed datagram and keeps looping — after any block of malformed
datagrams the next well-formed one is returned as the message — while
a connection-level receive error is propagated immediately, whether it
arrives first or after malformed datagrams. -/
theorem receive_discards_malformed_propagates_conn_error {α : Type}
    (parse : List Nat → Option α)
    (bad : List (List Nat)) (hbad : ∀ b ∈ bad, parse b = none)
    (d : List Nat) (m : α) (hd : parse d = some m)
    (rest tail2 : List DgramEvent) (e : QErr) :
    receiveMessage parse (bad.map DgramEvent.dgram ++ DgramEvent.dgram d :: rest)
        = some (Except.ok m)
    ∧ receiveMessage parse (DgramEvent.connErr e :: tail2)
        = some (Except.error e)
    ∧ receiveMessage parse (bad.map DgramEvent.dgram ++ DgramEvent.connErr e :: tail2)
        = some (Except.error e) := by
  refine ⟨?_, rfl, ?_⟩
  · rw [receiveMessage_skips_malformed parse bad hbad]
    simp [receiveMessage, hd]
  · rw [receiveMessage_skips_malformed parse bad hbad]
    rfl

/-- Witness for C9 at a concrete input: parsing takes the head byte,
the empty datagram is malformed and skipped, the next datagram is
delivered; an error event propagates. -/
theorem receive_discards_malformed_witness :
    receiveMessage (fun l => l.head?)
        ([[]].map DgramEvent.dgram ++ DgramEvent.dgram [7] :: [])
        = some (Except.ok 7)
    ∧ receiveMessage (fun l => l.head?)
        (DgramEvent.connErr ⟨true, true, "conn reset"⟩ :: [])
        = some (Except.error ⟨true, true, "conn reset"⟩)
    ∧ receiveMessage (fun l => l.head?)
        ([[]].map DgramEvent.dgram
          ++ DgramEvent.connErr ⟨true, true, "conn reset"⟩ :: [])
        = some (Except.error ⟨true, true, "conn reset"⟩) :=
  receive_discards_malformed_propagates_conn_error (fun l => l.head?)
    [[]] (by decide) [7] 7 rfl [] [] ⟨true, true, "conn reset"⟩

/-- Helper for C5: draining an already-buffered leftover of `rem`
remaining bytes through reads of buffer length `B` takes exactly
ceil(rem / B) calls, delivers exactly the remaining bytes in order
with no error, performs no transport receive, and ends with the
leftover buffer released. -/
theorem drain_reads (B : Nat) (hB : 0 < B) (recv : RecvResult) :
    ∀ rem : Nat, ∀ (c : ServerConn) (b : List Nat),
      c.ctxReadDone = false → c.ctxDone = false → c.buf = some b →
      c.offset < b.length → b.length - c.offset = rem →
      (((readSeq B recv c ((rem + B - 1) / B)).1.map (fun r => r.bytes)).flatten
          = b.drop c.offset
       ∧ (∀ r ∈ (readSeq B recv c ((rem + B - 1) / B)).1,
            r.err = none ∧ r.bytes ≠ [] ∧ r.recvCalled = false)
       ∧ (readSeq B recv c ((rem + B - 1) / B)).2.buf = none
       ∧ (readSeq B recv c ((rem + B - 1) / B)).2.ctxReadDone = false
       ∧ (readSeq B recv c ((rem + B - 1) / B)).2.ctxDone = false) := by
  intro rem
  induction rem using Nat.strong_induction_on with
  | _ rem ih =>
    intro c b h1 h2 hb ho hrem
    have hremp : 0 < rem := by omega
    by_cases hcase : rem ≤ B
    · -- last drain step: everything remaining fits
      have hq : (rem + B - 1) / B = 1 := by
        have h' : rem + B - 1 = (rem - 1) + B := by omega
        rw [h', Nat.add_div_right _ hB, Nat.div_eq_of_lt (by omega)]
      have htaken : (b.drop c.offset).take B = b.drop c.offset := by
        apply List.take_of_length_le
        rw [List.length_drop]; omega
      have htlen : ((b.drop c.offset).take B).length = rem := by
        rw [htaken, List.length_drop]; omega
      have hread : c.read B recv
          = ⟨rem, b.drop c.offset, none, false,
             { c with buf := none, offset := c.offset + rem }⟩ := by
        simp only [ServerConn.read, h1, h2, hb, Bool.false_eq_true, if_false]
        rw [htlen, if_pos (by omega : c.offset + rem = b.length), htaken]
      rw [hq]
      simp only [readSeq, hread]
      refine ⟨by simp, ?_, by simp, by simp [h1], by simp [h2]⟩
      intro r hr
      simp only [List.mem_singleton] at hr
      subst hr
      refine ⟨rfl, ?_, rfl⟩
      apply List.ne_nil_of_length_pos
      rw [List.length_drop]; omega
    · -- a full buffer is consumed, more remains
      push_neg at hcase
      have hq : (rem + B - 1) / B = ((rem - B) + B - 1) / B + 1 := by
        have h' : rem + B - 1 = ((rem - B) + B - 1) + B := by omega
        rw [h', Nat.add_div_right _ hB]
      have htlen : ((b.drop c.offset).take B).length = B := by
        rw [List.length_take, List.length_drop]; omega
      have hread : c.read B recv
          = ⟨B, (b.drop c.offset).take B, none, false,
             { c with offset := c.offset + B }⟩ := by
        simp only [ServerConn.read, h1, h2, hb, Bool.false_eq_true, if_false]
        rw [htlen, if_neg (by omega : ¬ c.offset + B = b.length)]
      rw [hq]
      simp only [readSeq, hread]
      obtain ⟨ihj, ihmem, ihbuf, ihr, ihd⟩ :=
        ih (rem - B) (by omega) { c with offset := c.offset + B } b
          (by simpa using h1) (by simpa using h2) (by simpa using hb)
          (by simp; omega) (by simp; omega)
      refine ⟨?_, ?_, by simpa using ihbuf, by simpa using ihr, by simpa using ihd⟩
      · simp only [List.map_cons, List.flatten_cons]
        have hj2 : ((readSeq B recv { c with offset := c.offset + B }
            (((rem - B) + B - 1) / B)).1.map (fun r => r.bytes)).flatten
            = b.drop (c.offset + B) := by simpa using ihj
        rw [hj2]
        have hdd : b.drop (c.offset + B) = (b.drop c.offset).drop B := by
          rw [List.drop_drop]
        rw [hdd, List.take_append_drop]
      · intro r hr
        simp only [List.mem_cons] at hr
        cases hr with
        | inl h =>
            subst h
            refine ⟨rfl, ?_, rfl⟩
            apply List.ne_nil_of_length_pos
            rw [htlen]; omega
        | inr h => exact ihmem r (by simpa using h)

/-- Helper for C5: a sequence of `k` reads always produces exactly `k`
per-call outcomes. -/
theorem readSeq_length (plen : Nat) (recv : RecvResult) :
    ∀ (c : ServerConn) (k : Nat), (readSeq plen recv c k).1.length = k := by
  intro c k
  induction k generalizing c with
  | zero => rfl
  | succ k ih => simp [readSeq, ih]

/-- Claim C5: on a live ServerConn with no leftover bytes, a non-empty
received message `data` is fully delivered — no byte lost, duplicated
or reordered — across exactly ceil(data.length / B) successive Read
calls with caller-buffer length B > 0, each of which returns some
bytes without error, and only the first of those calls performs a
transport receive. -/
theorem message_delivered_in_ceil_reads
    (data : List Nat) (B : Nat) (c : ServerConn)
    (hdata : data ≠ []) (hB : 0 < B)
    (hbuf : c.buf = none) (h1 : c.ctxReadDone = false) (h2 : c.ctxDone = false) :
    ((readSeq B (RecvResult.msg data) c ((data.length + B - 1) / B)).1.map
        (fun r => r.bytes)).flatten = data
    ∧ (readSeq B (RecvResult.msg data) c ((data.length + B - 1) / B)).1.length
        = (data.length + B - 1) / B
    ∧ (∀ r ∈ (readSeq B (RecvResult.msg data) c ((data.length + B - 1) / B)).1,
        r.err = none ∧ r.bytes ≠ [])
    ∧ (∃ (r0 : ReadResult) (rs : List ReadResult),
        (readSeq B (RecvResult.msg data) c ((data.length + B - 1) / B)).1
            = r0 :: rs
        ∧ r0.recvCalled = true
        ∧ ∀ r ∈ rs, r.recvCalled = false) := by
  have hL : 0 < data.length := List.length_pos.mpr hdata
  by_cases hcase : data.length ≤ B
  · -- whole message fits in the first read
    have hq : (data.length + B - 1) / B = 1 := by
      have h' : data.length + B - 1 = (data.length - 1) + B := by omega
      rw [h', Nat.add_div_right _ hB, Nat.div_eq_of_lt (by omega)]
    have htake : data.take B = data := List.take_of_length_le hcase
    have hread : c.read B (RecvResult.msg data)
        = ⟨data.length, data, none, true, { c with buf := none, offset := 0 }⟩ := by
      simp only [ServerConn.read, h1, h2, hbuf, Bool.false_eq_true, if_false]
      rw [htake]
      rw [List.drop_length]
      rfl
    rw [hq]
    simp only [readSeq, hread]
    refine ⟨by simp, by simp, ?_, ?_⟩
    · intro r hr
      simp only [List.mem_singleton] at hr
      subst hr
      exact ⟨rfl, hdata⟩
    · exact ⟨_, [], rfl, rfl, by simp⟩
  · -- first read consumes B bytes, the rest drains from the leftover buffer
    push_neg at hcase
    have hq : (data.length + B - 1) / B
        = ((data.length - B) + B - 1) / B + 1 := by
      have h' : data.length + B - 1 = ((data.length - B) + B - 1) + B := by omega
      rw [h', Nat.add_div_right _ hB]
    have htlen : (data.take B).length = B := by
      rw [List.length_take]; omega
    have hne : data.drop B ≠ [] := by
      apply List.ne_nil_of_length_pos
      rw [List.length_drop]; omega
    have hread : c.read B (RecvResult.msg data)
        = ⟨B, data.take B, none, true,
           { c with buf := some (data.drop B), offset := 0 }⟩ := by
      simp only [ServerConn.read, h1, h2, hbuf, Bool.false_eq_true, if_false]
      rw [htlen]
      simp [poolGet, hne]
    rw [hq]
    simp only [readSeq, hread]
    obtain ⟨dj, dmem, _, _, _⟩ :=
      drain_reads B hB (RecvResult.msg data) (data.length - B)
        { c with buf := some (data.drop B), offset := 0 } (data.drop B)
        (by simpa using h1) (by simpa using h2) (by simp)
        (by simp only [List.length_drop]; omega)
        (by simp only [List.length_drop]; omega)
    have dj2 : ((readSeq B (RecvResult.msg data)
        { c with buf := some (data.drop B), offset := 0 }
        (((data.length - B) + B - 1) / B)).1.map (fun r => r.bytes)).flatten
        = data.drop B := by simpa using dj
    refine ⟨?_, ?_, ?_, ?_⟩
    · simp only [List.map_cons, List.flatten_cons, dj2]
      exact List.take_append_drop B data
    · simp [readSeq_length]
    · intro r hr
      simp only [List.mem_cons] at hr
      cases hr with
      | inl h =>
          subst h
          refine ⟨rfl, ?_⟩
          apply List.ne_nil_of_length_pos
          rw [htlen]; omega
      | inr h =>
          have := dmem r (by simpa using h)
          exact ⟨this.1, this.2.1⟩
    · refine ⟨_, _, rfl, rfl, ?_⟩
      intro r hr
      exact (dmem r (by simpa using hr)).2.2

/-- Witness for C5 at a concrete input: the 3-byte message [1, 2, 3]
through a 2-byte caller buffer on a fresh connection. -/
theorem message_delivered_witness :
    ((readSeq 2 (RecvResult.msg [1, 2, 3]) initConn
        ((([1, 2, 3] : List Nat).length + 2 - 1) / 2)).1.map
        (fun r => r.bytes)).flatten = [1, 2, 3]
    ∧ (readSeq 2 (RecvResult.msg [1, 2, 3]) initConn
        ((([1, 2, 3] : List Nat).length + 2 - 1) / 2)).1.length
        = (([1, 2, 3] : List Nat).length + 2 - 1) / 2
    ∧ (∀ r ∈ (readSeq 2 (RecvResult.msg [1, 2, 3]) initConn
        ((([1, 2, 3] : List Nat).length + 2 - 1) / 2)).1,
        r.err = none ∧ r.bytes ≠ [])
    ∧ (∃ (r0 : ReadResult) (rs : List ReadResult),
        (readSeq 2 (RecvResult.msg [1, 2, 3]) initConn
            ((([1, 2, 3] : List Nat).length + 2 - 1) / 2)).1
            = r0 :: rs
        ∧ r0.recvCalled = true
        ∧ ∀ r ∈ rs, r.recvCalled = false) :=
  message_delivered_in_ceil_reads [1, 2, 3] 2 initConn
    (by decide) (by decide) rfl rfl rfl
